import Mathlib

/-
Verification of the process-execution utility in src/client.py.

The development has two layers:

* a functional model of the per-result operations (`CLIResponse`,
  `CLIResponse.kill`, `cleanup`, `clear_buffers`) over an abstract OS state
  `Sys` holding the set of live pids, the process genealogy, and the
  `OBJS_TO_CLEANUP` registry; signalling a dead pid raises
  `ProcessLookupError` exactly as `os.kill` does, and `psutil.Process`
  raises `NoSuchProcess` for a dead pid;

* an executable small-step interleaving semantics of
  `CommandLineClient._exec_cmd` (the worker `target`, the two `read_pipe`
  pump threads, the child process, and the timeout join), used for the
  temporal claims about stream draining, finalization order, and the
  timeout path.
-/

namespace CommandLine

/-- Raw bytes held in one output buffer (the Python code stores bytes). -/
abbrev Bytes := List Nat

/-- Shallow embedding of `CLIResponse.__init__` (src/client.py lines 36-44).
Buffers are byte lists, `proc` is the pid of the attached OS process
(`None` before spawn), and `id` stands for the Python object identity used
by `OBJS_TO_CLEANUP.remove(self)`. -/
structure CLIResponse where
  id : Nat
  cmd : String
  proc : Option Nat
  returncode : Option Int
  stdout_buf : Bytes
  stderr_buf : Bytes
  decode_type : String
  total_time : Option Nat
  deriving DecidableEq, Repr

/-- Constructor defaults of `CLIResponse.__init__`: empty buffers, no
process, no exit code, utf8 decoding, no elapsed time. -/
def CLIResponse.make (cmd : String) (idv : Nat) : CLIResponse :=
  { id := idv, cmd := cmd, proc := none, returncode := none,
    stdout_buf := [], stderr_buf := [], decode_type := "utf8", total_time := none }

/-- Property `CLIResponse.stdout` (lines 46-48): `self.stdout_buf.getvalue()`. -/
def CLIResponse.stdout (r : CLIResponse) : Bytes := r.stdout_buf

/-- Property `CLIResponse.stderr` (lines 50-52). -/
def CLIResponse.stderr (r : CLIResponse) : Bytes := r.stderr_buf

/-- Method `CLIResponse.clear_buffers` (lines 111-115): `seek(0)` followed by
`truncate()` leaves each buffer empty in place. -/
def CLIResponse.clear_buffers (r : CLIResponse) : CLIResponse :=
  { r with stdout_buf := [], stderr_buf := [] }

/-- One write performed by the stdout pump of `read_pipe` (lines 26-33):
`fp_out.write(line)` appends the line read from the pipe to the buffer. -/
def CLIResponse.pumpStdout (r : CLIResponse) (l : Bytes) : CLIResponse :=
  { r with stdout_buf := r.stdout_buf ++ l }

/-- One write performed by the stderr pump of `read_pipe` (lines 26-33). -/
def CLIResponse.pumpStderr (r : CLIResponse) (l : Bytes) : CLIResponse :=
  { r with stderr_buf := r.stderr_buf ++ l }

/-- The stdout pump appending a whole sequence of lines, one write each. -/
def CLIResponse.pumpStdoutAll (r : CLIResponse) (ls : List Bytes) : CLIResponse :=
  ls.foldl CLIResponse.pumpStdout r

/-- The stderr pump appending a whole sequence of lines, one write each. -/
def CLIResponse.pumpStderrAll (r : CLIResponse) (ls : List Bytes) : CLIResponse :=
  ls.foldl CLIResponse.pumpStderr r

/-- Abstract OS state seen by `CLIResponse.kill` and the cleanup hook:
the set of currently live pids, the parent/child genealogy of processes
(fixed bookkeeping used to interpret `psutil.Process(pid).children
(recursive=True)`), and the pids registered in `OBJS_TO_CLEANUP`
(identified by the `id` field of their `CLIResponse`). -/
structure Sys where
  live : List Nat
  edges : List (Nat × Nat)
  registry : List Nat
  deriving DecidableEq, Repr

/-- Direct children of a pid in the genealogy. -/
def childrenOf (edges : List (Nat × Nat)) (p : Nat) : List Nat :=
  (edges.filter fun e => e.1 = p).map Prod.snd

/-- Fuelled transitive closure of `childrenOf`; fuel `edges.length` suffices
for any acyclic genealogy. -/
def descAux (edges : List (Nat × Nat)) : Nat → Nat → List Nat
  | 0, _ => []
  | fuel + 1, p => (childrenOf edges p).flatMap fun c => c :: descAux edges fuel c

/-- The enumeration `psutil.Process(pid).children(recursive=True)` performed
at line 100: all recursive descendants of `p`.  A descendant that is in the
genealogy but no longer in `Sys.live` models a process that has died by the
time the signal of line 101 is sent (the enumeration/signal race of the
spec's *TerminationRace*). -/
def descendants (s : Sys) (p : Nat) : List Nat :=
  descAux s.edges s.edges.length p

/-- Python exception kinds relevant to `CLIResponse.kill` (lines 99-104). -/
inductive PyExc
  | processLookupError
  | noSuchProcess
  | otherError
  deriving DecidableEq, Repr

/-- Exception kinds caught by `except (ProcessLookupError,
psutil.NoSuchProcess)` at line 103. -/
def caught : PyExc → Bool
  | .processLookupError => true
  | .noSuchProcess => true
  | .otherError => false

/-- The loop of lines 100-101: `os.kill(proc.pid, sig)` for each enumerated
descendant in order.  `os.kill` on a dead pid raises `ProcessLookupError`,
aborting the loop; kills already delivered stay delivered.  The signal is
the resolved `sig` of lines 94-98 (`SIGKILL` on POSIX, `SIGTERM` on
Windows); its delivery is modelled as removal from `live` either way. -/
def sigAll : Sys → List Nat → Sys × Option PyExc
  | s, [] => (s, none)
  | s, p :: rest =>
    if p ∈ s.live then sigAll { s with live := s.live.erase p } rest
    else (s, some PyExc.processLookupError)

/-- The `try` block of `CLIResponse.kill` (lines 99-102):
`psutil.Process(self.proc.pid)` raises `NoSuchProcess` for a dead pid; then
every recursive descendant is signalled, then the tracked pid itself. -/
def killTryBlock (s : Sys) (pid : Nat) : Sys × Option PyExc :=
  if pid ∈ s.live then
    match sigAll s (descendants s pid) with
    | (s1, none) =>
      if pid ∈ s1.live then ({ s1 with live := s1.live.erase pid }, none)
      else (s1, some PyExc.processLookupError)
    | (s1, some e) => (s1, some e)
  else (s, some PyExc.noSuchProcess)

/-- Method `CLIResponse.kill` (lines 91-106): no-op without an attached
process; otherwise run the `try` block, swallow `ProcessLookupError` and
`NoSuchProcess`, and finally execute
`if self in OBJS_TO_CLEANUP: OBJS_TO_CLEANUP.remove(self)` (removal of the
first occurrence, skipped when an uncaught exception propagates). -/
def CLIResponse.kill (r : CLIResponse) (s : Sys) : Except (PyExc × Sys) Sys :=
  match r.proc with
  | none => Except.ok s
  | some pid =>
    match killTryBlock s pid with
    | (s1, none) => Except.ok { s1 with registry := s1.registry.erase r.id }
    | (s1, some e) =>
      if caught e then Except.ok { s1 with registry := s1.registry.erase r.id }
      else Except.error (e, s1)

/-- Destructor `CLIResponse.__del__` (lines 108-109): its whole body is
`self.kill()`. -/
def CLIResponse.del (r : CLIResponse) (s : Sys) : Except (PyExc × Sys) Sys :=
  r.kill s

/-- Module-level `cleanup` (lines 18-20): iterate over the snapshot
`list(OBJS_TO_CLEANUP)` taken on entry and call `kill` on each member; an
exception escaping a `kill` would abort the loop and propagate. -/
def cleanup : List CLIResponse → Sys → Except (PyExc × Sys) Sys
  | [], s => Except.ok s
  | r :: rest, s =>
    match r.kill s with
    | Except.ok s1 => cleanup rest s1
    | Except.error e => Except.error e

/-- The hooks registered with `atexit` by the module (line 23): exactly the
single registration `atexit.register(cleanup)` performed at import time. -/
def atexitHooks : List (List CLIResponse → Sys → Except (PyExc × Sys) Sys) :=
  [cleanup]

/-- Concrete test process tree for the claim-3 witness: pid 1 with child 2
and grandchild 3, all alive, tracked by a registered response. -/
def respW : CLIResponse :=
  { id := 0, cmd := "sleep 100", proc := some 1, returncode := none,
    stdout_buf := [], stderr_buf := [], decode_type := "utf8", total_time := none }

def sysW : Sys :=
  { live := [1, 2, 3], edges := [(1, 2), (2, 3)], registry := [0] }

/-- Concrete data for the claim-4 witness: a response tracking the dead
pid 9, and a response that was never attached to a process. -/
def respW4 : CLIResponse :=
  { id := 0, cmd := "sleep 100", proc := some 9, returncode := some 0,
    stdout_buf := [], stderr_buf := [], decode_type := "utf8", total_time := some 1 }

def respW4none : CLIResponse :=
  { id := 3, cmd := "sleep 100", proc := none, returncode := none,
    stdout_buf := [], stderr_buf := [], decode_type := "utf8", total_time := none }

def sysW4 : Sys := { live := [5], edges := [], registry := [0] }

/-- Process subtree a response tracks: the tracked pid together with all of
its enumerated descendants (empty without an attached process). -/
def tree (s : Sys) (r : CLIResponse) : List Nat :=
  match r.proc with
  | none => []
  | some p => p :: descendants s p

/-- Concrete data for the claim-7 witness: two registered async invocations,
one tracking the tree 1 → 2 → 3 and one tracking the single process 4. -/
def respW7a : CLIResponse :=
  { id := 0, cmd := "sleep 100", proc := some 1, returncode := none,
    stdout_buf := [], stderr_buf := [], decode_type := "utf8", total_time := none }

def respW7b : CLIResponse :=
  { id := 1, cmd := "sleep 200", proc := some 4, returncode := none,
    stdout_buf := [], stderr_buf := [], decode_type := "utf8", total_time := none }

def sysW7 : Sys :=
  { live := [1, 2, 3, 4], edges := [(1, 2), (2, 3)], registry := [0, 1] }

/-- Concrete data for the claim-8 witness: a registered response tracking
pid 5 with one child 6, whose handle is dropped. -/
def respW8 : CLIResponse :=
  { id := 2, cmd := "sleep 100", proc := some 5, returncode := none,
    stdout_buf := [], stderr_buf := [], decode_type := "utf8", total_time := none }

def sysW8 : Sys :=
  { live := [5, 6], edges := [(5, 6)], registry := [2] }

/-- Control locations of the worker `target` closure of `_exec_cmd`
(lines 126-138): before `Popen` has run; blocked in `proc.wait()` (line
136); joining the stdout pump (line 137); joining the stderr pump (line
138); finished. -/
inductive TPC
  | tStart
  | tWait
  | tJoinOut
  | tJoinErr
  | tDone
  deriving DecidableEq, Repr

/-- Control locations of the invoking thread of `_exec_cmd` (lines
140-152): joining the worker — `thread.join(timeout)` when a timeout was
given, or running `target()` inline otherwise; the second `thread.join()`
of line 147 after a timeout-triggered kill; the assignment of line 150;
the assignment of line 151; returned. -/
inductive MPC
  | mJoin
  | mJoin2
  | mSetRC
  | mSetTime
  | mDone
  deriving DecidableEq, Repr

/-- Static data of one `_exec_cmd` invocation: the byte lines the child
would write to each stream if it ran to completion, its natural exit code,
the (signal-induced) exit status reported after a kill, whether the
`timeout` argument was not `None`, and whether `async_cmd` had appended
the response to `OBJS_TO_CLEANUP` before this run. -/
structure ExecCfg where
  outLines : List Bytes
  errLines : List Bytes
  exitCode : Int
  killCode : Int
  hasTimeout : Bool
  registered0 : Bool
  deriving DecidableEq, Repr

/-- Interleaving state of one `_exec_cmd` invocation: the child process
(spawned/exited flags, its wait status, the output it has not yet written),
the two pipes (written-but-unread lines), the two pump threads (consumed
bytes in the response buffers, end-of-stream flags), the `CLIResponse`
fields `returncode` and `total_time`, the registry membership of the
response, and the two thread program counters.  `outWritten`/`errWritten`
record every line the process actually wrote; `clock` counts steps. -/
structure ExecState where
  procSpawned : Bool
  procExited : Bool
  osCode : Option Int
  outFuture : List Bytes
  errFuture : List Bytes
  outPending : List Bytes
  errPending : List Bytes
  outWritten : List Bytes
  errWritten : List Bytes
  outDone : Bool
  errDone : Bool
  returncode : Option Int
  total_time : Option Nat
  stdout_buf : Bytes
  stderr_buf : Bytes
  registered : Bool
  killed : Bool
  tpc : TPC
  mpc : MPC
  clock : Nat
  deriving DecidableEq, Repr

/-- State at entry of `_exec_cmd`: nothing spawned, buffers empty (the
fresh `CLIResponse` of line 121 or the one passed by `async_cmd`),
`returncode` and `total_time` both `None`. -/
def initState (cfg : ExecCfg) : ExecState :=
  { procSpawned := false, procExited := false, osCode := none,
    outFuture := cfg.outLines, errFuture := cfg.errLines,
    outPending := [], errPending := [], outWritten := [], errWritten := [],
    outDone := false, errDone := false, returncode := none, total_time := none,
    stdout_buf := [], stderr_buf := [], registered := cfg.registered0,
    killed := false, tpc := TPC.tStart, mpc := MPC.mJoin, clock := 0 }

/-- Atomic events of the interleaving: `spawn` is line 133 together with
starting the pumps (lines 134-135); `writeOut`/`writeErr` are writes by the
child to a pipe; `procExit` is the child finishing naturally (after writing
everything); `pumpOut`/`pumpErr` are single `readline`-and-append steps of
a pump; `outEof`/`errEof` are a pump observing end-of-stream and
terminating; `waitExit` is `proc.wait()` returning (line 136);
`joinOut`/`joinErr` are lines 137-138; `joinTgt` is `thread.join(timeout)`
returning because the worker finished (or the inline `target()` of line 149
returning); `fireEarly`/`fireSpawned` are the timeout expiring with
`thread.is_alive()` true followed by `cmd_obj.kill()` (lines 145-146) —
before the worker has even spawned the process (`kill` no-ops on
`proc is None`) or after; `joinTgt2` is line 147; `setRC` is line 150;
`setTime` is line 151. -/
inductive Lbl
  | spawn
  | writeOut
  | writeErr
  | procExit
  | pumpOut
  | pumpErr
  | outEof
  | errEof
  | waitExit
  | joinOut
  | joinErr
  | joinTgt
  | fireEarly
  | fireSpawned
  | joinTgt2
  | setRC
  | setTime
  deriving DecidableEq, Repr

/-- Guarded effect of each event; `none` when the event is not enabled in
state `s`.  A kill delivers the signal to the whole (single-process)
subtree: the child stops writing (its unwritten output is lost), its wait
status becomes the signal status unless it had already exited, and the
response is removed from `OBJS_TO_CLEANUP` (lines 105-106); data already
in a pipe stays readable after the writer dies, so the pumps still drain
`outPending`/`errPending` before observing end-of-stream. -/
def stepFn (cfg : ExecCfg) (s : ExecState) : Lbl → Option ExecState
  | .spawn =>
    if s.tpc = TPC.tStart then
      some { s with procSpawned := true, tpc := TPC.tWait, clock := s.clock + 1 }
    else none
  | .writeOut =>
    match s.outFuture with
    | [] => none
    | l :: rest =>
      if s.procSpawned = true ∧ s.procExited = false then
        some { s with outFuture := rest, outPending := s.outPending ++ [l],
                      outWritten := s.outWritten ++ [l], clock := s.clock + 1 }
      else none
  | .writeErr =>
    match s.errFuture with
    | [] => none
    | l :: rest =>
      if s.procSpawned = true ∧ s.procExited = false then
        some { s with errFuture := rest, errPending := s.errPending ++ [l],
                      errWritten := s.errWritten ++ [l], clock := s.clock + 1 }
      else none
  | .procExit =>
    if s.procSpawned = true ∧ s.procExited = false ∧ s.outFuture = [] ∧
        s.errFuture = [] then
      some { s with procExited := true, osCode := some cfg.exitCode,
                    clock := s.clock + 1 }
    else none
  | .pumpOut =>
    match s.outPending with
    | [] => none
    | l :: rest =>
      some { s with outPending := rest, stdout_buf := s.stdout_buf ++ l,
                    clock := s.clock + 1 }
  | .pumpErr =>
    match s.errPending with
    | [] => none
    | l :: rest =>
      some { s with errPending := rest, stderr_buf := s.stderr_buf ++ l,
                    clock := s.clock + 1 }
  | .outEof =>
    if s.procExited = true ∧ s.outPending = [] ∧ s.outDone = false then
      some { s with outDone := true, clock := s.clock + 1 }
    else none
  | .errEof =>
    if s.procExited = true ∧ s.errPending = [] ∧ s.errDone = false then
      some { s with errDone := true, clock := s.clock + 1 }
    else none
  | .waitExit =>
    if s.tpc = TPC.tWait ∧ s.procExited = true then
      some { s with returncode := s.osCode, tpc := TPC.tJoinOut,
                    clock := s.clock + 1 }
    else none
  | .joinOut =>
    if s.tpc = TPC.tJoinOut ∧ s.outDone = true then
      some { s with tpc := TPC.tJoinErr, clock := s.clock + 1 }
    else none
  | .joinErr =>
    if s.tpc = TPC.tJoinErr ∧ s.errDone = true then
      some { s with tpc := TPC.tDone, clock := s.clock + 1 }
    else none
  | .joinTgt =>
    if s.mpc = MPC.mJoin ∧ s.tpc = TPC.tDone then
      some { s with mpc := MPC.mSetRC, clock := s.clock + 1 }
    else none
  | .fireEarly =>
    if s.mpc = MPC.mJoin ∧ cfg.hasTimeout = true ∧ s.tpc = TPC.tStart then
      some { s with mpc := MPC.mJoin2, clock := s.clock + 1 }
    else none
  | .fireSpawned =>
    if s.mpc = MPC.mJoin ∧ cfg.hasTimeout = true ∧ s.tpc ≠ TPC.tStart ∧
        s.tpc ≠ TPC.tDone then
      some { s with killed := true, registered := false, procExited := true,
                    osCode := if s.procExited then s.osCode else some cfg.killCode,
                    outFuture := [], errFuture := [], mpc := MPC.mJoin2,
                    clock := s.clock + 1 }
    else none
  | .joinTgt2 =>
    if s.mpc = MPC.mJoin2 ∧ s.tpc = TPC.tDone then
      some { s with mpc := MPC.mSetRC, clock := s.clock + 1 }
    else none
  | .setRC =>
    if s.mpc = MPC.mSetRC then
      some { s with returncode := s.osCode, mpc := MPC.mSetTime,
                    clock := s.clock + 1 }
    else none
  | .setTime =>
    if s.mpc = MPC.mSetTime then
      some { s with total_time := some s.clock, mpc := MPC.mDone,
                    clock := s.clock + 1 }
    else none

/-- One interleaving step: some event fires. -/
def Step (cfg : ExecCfg) (s s' : ExecState) : Prop :=
  ∃ l : Lbl, stepFn cfg s l = some s'

/-- States reachable during the invocation. -/
def Reach (cfg : ExecCfg) (s : ExecState) : Prop :=
  Relation.ReflTransGen (Step cfg) (initState cfg) s

/-- Executable scheduler: apply a list of events in order. -/
def runLbls (cfg : ExecCfg) : ExecState → List Lbl → Option ExecState
  | s, [] => some s
  | s, l :: ls =>
    match stepFn cfg s l with
    | some s' => runLbls cfg s' ls
    | none => none

/-- Inductive invariant of the interleaving system.  `outCons`/`errCons`
say the response buffer plus the unread pipe content is exactly what the
process wrote; `natFull`/`natExit` relate written output and wait status to
the configured script when no kill happened; the pc-indexed fields pin
down when `returncode`, `total_time` and the joins happen. -/
structure Inv (cfg : ExecCfg) (s : ExecState) : Prop where
  outCons : s.stdout_buf ++ s.outPending.flatten = s.outWritten.flatten
  errCons : s.stderr_buf ++ s.errPending.flatten = s.errWritten.flatten
  outDoneP : s.outDone = true → s.outPending = [] ∧ s.procExited = true
  errDoneP : s.errDone = true → s.errPending = [] ∧ s.procExited = true
  codeExit : s.osCode = none ↔ s.procExited = false
  natFull : s.killed = false → s.outWritten ++ s.outFuture = cfg.outLines ∧
    s.errWritten ++ s.errFuture = cfg.errLines
  natExit : s.killed = false → s.procExited = true →
    s.outFuture = [] ∧ s.errFuture = [] ∧ s.osCode = some cfg.exitCode
  spawnPC : s.procSpawned = false ↔ s.tpc = TPC.tStart
  rcPC : s.returncode ≠ none ↔
    (s.tpc = TPC.tJoinOut ∨ s.tpc = TPC.tJoinErr ∨ s.tpc = TPC.tDone)
  rcVal : s.returncode ≠ none → s.returncode = s.osCode ∧ s.procExited = true
  joinedOut : s.tpc = TPC.tJoinErr ∨ s.tpc = TPC.tDone → s.outDone = true
  joinedErr : s.tpc = TPC.tDone → s.errDone = true
  mainPC : s.mpc = MPC.mSetRC ∨ s.mpc = MPC.mSetTime ∨ s.mpc = MPC.mDone →
    s.tpc = TPC.tDone
  timePC : s.total_time ≠ none ↔ s.mpc = MPC.mDone
  regInv : s.registered = (cfg.registered0 && !s.killed)
  killedTO : s.killed = true → cfg.hasTimeout = true

/-- Invocation for the claim-1 witness: the child prints the two bytes
"hi" on stdout and exits 0; synchronous, no timeout. -/
def cfgC1 : ExecCfg :=
  { outLines := [[104, 105]], errLines := [], exitCode := 0, killCode := -9,
    hasTimeout := false, registered0 := false }

def chainC1 : List Lbl :=
  [Lbl.spawn, Lbl.writeOut, Lbl.pumpOut, Lbl.procExit, Lbl.outEof, Lbl.errEof,
   Lbl.waitExit, Lbl.joinOut, Lbl.joinErr, Lbl.joinTgt, Lbl.setRC, Lbl.setTime]

def sFinC1 : ExecState :=
  { procSpawned := true, procExited := true, osCode := some 0,
    outFuture := [], errFuture := [], outPending := [], errPending := [],
    outWritten := [[104, 105]], errWritten := [],
    outDone := true, errDone := true, returncode := some 0,
    total_time := some 11, stdout_buf := [104, 105], stderr_buf := [],
    registered := false, killed := false, tpc := TPC.tDone, mpc := MPC.mDone,
    clock := 12 }

/-- Invocation for the claim-5 theorems: an asynchronous run (`registered0`
true), no timeout, exiting naturally with code 0. -/
def cfgC5 : ExecCfg :=
  { outLines := [], errLines := [], exitCode := 0, killCode := -9,
    hasTimeout := false, registered0 := true }

def chainC5 : List Lbl :=
  [Lbl.spawn, Lbl.procExit, Lbl.outEof, Lbl.errEof, Lbl.waitExit, Lbl.joinOut,
   Lbl.joinErr, Lbl.joinTgt, Lbl.setRC, Lbl.setTime]

def sFinC5 : ExecState :=
  { procSpawned := true, procExited := true, osCode := some 0,
    outFuture := [], errFuture := [], outPending := [], errPending := [],
    outWritten := [], errWritten := [],
    outDone := true, errDone := true, returncode := some 0,
    total_time := some 9, stdout_buf := [], stderr_buf := [],
    registered := true, killed := false, tpc := TPC.tDone, mpc := MPC.mDone,
    clock := 10 }

/-- Invocation for the claim-6 theorems: synchronous, no output, natural
exit with code 0. -/
def cfgC6 : ExecCfg :=
  { outLines := [], errLines := [], exitCode := 0, killCode := -9,
    hasTimeout := false, registered0 := false }

def chainC6 : List Lbl := [Lbl.spawn, Lbl.procExit, Lbl.waitExit]

def sBadC6 : ExecState :=
  { procSpawned := true, procExited := true, osCode := some 0,
    outFuture := [], errFuture := [], outPending := [], errPending := [],
    outWritten := [], errWritten := [],
    outDone := false, errDone := false, returncode := some 0,
    total_time := none, stdout_buf := [], stderr_buf := [],
    registered := false, killed := false, tpc := TPC.tJoinOut, mpc := MPC.mJoin,
    clock := 3 }

/-- Invocation for the claim-10 witness: one line on each stream, exit code
3, a timeout that never fires, registered as an async invocation. -/
def cfgC10 : ExecCfg :=
  { outLines := [[104]], errLines := [[101]], exitCode := 3, killCode := -9,
    hasTimeout := true, registered0 := true }

def chainC10 : List Lbl :=
  [Lbl.spawn, Lbl.writeOut, Lbl.writeErr, Lbl.pumpOut, Lbl.pumpErr,
   Lbl.procExit, Lbl.outEof, Lbl.errEof, Lbl.waitExit, Lbl.joinOut,
   Lbl.joinErr, Lbl.joinTgt, Lbl.setRC, Lbl.setTime]

def sFinC10 : ExecState :=
  { procSpawned := true, procExited := true, osCode := some 3,
    outFuture := [], errFuture := [], outPending := [], errPending := [],
    outWritten := [[104]], errWritten := [[101]],
    outDone := true, errDone := true, returncode := some 3,
    total_time := some 13, stdout_buf := [104], stderr_buf := [101],
    registered := true, killed := false, tpc := TPC.tDone, mpc := MPC.mDone,
    clock := 14 }

/-- Outcome of the `subprocess.Popen` call of line 133. -/
inductive SpawnResult
  | ok (pid : Nat)
  | failure
  deriving DecidableEq, Repr

/-- Python exceptions that can surface from `_exec_cmd` when `Popen`
fails: the launch error itself (e.g. `FileNotFoundError`), or the
`AttributeError` raised by line 150 when `cmd_obj.proc` is still `None`. -/
inductive PyError
  | launchError
  | attributeError
  deriving DecidableEq, Repr

/-- Spawning inside `target` (lines 127-133): a failed `Popen` raises the
launch error before `cmd_obj.proc` is ever assigned. -/
def targetSpawn : SpawnResult → Except PyError Nat
  | SpawnResult.ok pid => Except.ok pid
  | SpawnResult.failure => Except.error PyError.launchError

/-- Launch behaviour of the synchronous no-timeout path (line 149):
`target()` runs inline, so a `Popen` failure propagates to the caller of
`exec_cmd` as the launch error itself. -/
def execCmdNoTimeoutLaunch (sp : SpawnResult) : Except PyError Nat :=
  targetSpawn sp

/-- Launch behaviour of the synchronous path with a timeout (lines
140-150): `target()` runs on a daemon thread, whose exception is swallowed
by the threading machinery; the join then returns, `thread.is_alive()` is
false, and line 150 dereferences `cmd_obj.proc.returncode` with
`cmd_obj.proc` still `None`, raising `AttributeError` instead of the launch
error. -/
def execCmdTimeoutLaunch (sp : SpawnResult) : Except PyError Nat :=
  match targetSpawn sp with
  | Except.ok pid => Except.ok pid
  | Except.error _ => Except.error PyError.attributeError

/-- The wait loop of `async_cmd` (lines 166-167):
`while obj.proc is None: time.sleep(.001)`, checking `obj.proc` once per
iteration; returns whether the loop has exited within `fuel` iterations. -/
def asyncWaitLoop (proc : Option Nat) : Nat → Bool
  | 0 => false
  | n + 1 => if proc.isSome then true else asyncWaitLoop proc n

theorem pumpStdoutAll_spec (r : CLIResponse) (ls : List Bytes) :
    (r.pumpStdoutAll ls).stdout_buf = r.stdout_buf ++ ls.flatten ∧
    (r.pumpStdoutAll ls).stderr_buf = r.stderr_buf := by
  induction ls generalizing r with
  | nil => simp [CLIResponse.pumpStdoutAll]
  | cons l ls ih =>
    have h := ih (r.pumpStdout l)
    simp only [CLIResponse.pumpStdoutAll, List.foldl_cons] at h ⊢
    simpa [CLIResponse.pumpStdout] using h

theorem pumpStderrAll_spec (r : CLIResponse) (ls : List Bytes) :
    (r.pumpStderrAll ls).stderr_buf = r.stderr_buf ++ ls.flatten ∧
    (r.pumpStderrAll ls).stdout_buf = r.stdout_buf := by
  induction ls generalizing r with
  | nil => simp [CLIResponse.pumpStderrAll]
  | cons l ls ih =>
    have h := ih (r.pumpStderr l)
    simp only [CLIResponse.pumpStderrAll, List.foldl_cons] at h ⊢
    simpa [CLIResponse.pumpStderr] using h

/-- C9: after `clear_buffers()` both `stdout()` and `stderr()` are empty, and
output written afterwards by the still-running process's pumps accumulates
starting from empty; `clear_buffers` applies to any `CLIResponse` state,
including one whose process is still running. -/
theorem c9_clear_buffers (r : CLIResponse) (ls ms : List Bytes) :
    r.clear_buffers.stdout = [] ∧
    r.clear_buffers.stderr = [] ∧
    ((r.clear_buffers.pumpStdoutAll ls).pumpStderrAll ms).stdout = ls.flatten ∧
    ((r.clear_buffers.pumpStdoutAll ls).pumpStderrAll ms).stderr = ms.flatten := by
  have h1 := pumpStdoutAll_spec r.clear_buffers ls
  have h2 := pumpStderrAll_spec (r.clear_buffers.pumpStdoutAll ls) ms
  refine ⟨rfl, rfl, ?_, ?_⟩
  · rw [CLIResponse.stdout, h2.2, h1.1]
    simp [CLIResponse.clear_buffers]
  · rw [CLIResponse.stderr, h2.1, h1.2]
    simp [CLIResponse.clear_buffers]

theorem sigAll_edges (ds : List Nat) : ∀ s : Sys, (sigAll s ds).1.edges = s.edges := by
  induction ds with
  | nil => intro s; rfl
  | cons p rest ih =>
    intro s
    by_cases hp : p ∈ s.live
    · simp only [sigAll, if_pos hp]
      exact ih _
    · simp only [sigAll, if_neg hp]

theorem sigAll_registry (ds : List Nat) : ∀ s : Sys, (sigAll s ds).1.registry = s.registry := by
  induction ds with
  | nil => intro s; rfl
  | cons p rest ih =>
    intro s
    by_cases hp : p ∈ s.live
    · simp only [sigAll, if_pos hp]
      exact ih _
    · simp only [sigAll, if_neg hp]

theorem sigAll_subset (ds : List Nat) : ∀ s : Sys, (sigAll s ds).1.live ⊆ s.live := by
  induction ds with
  | nil => intro s; exact fun x hx => hx
  | cons p rest ih =>
    intro s
    by_cases hp : p ∈ s.live
    · simp only [sigAll, if_pos hp]
      exact fun x hx => List.erase_subset _ _ (ih _ hx)
    · simp only [sigAll, if_neg hp]
      exact fun x hx => hx

theorem sigAll_nodup (ds : List Nat) :
    ∀ s : Sys, s.live.Nodup → (sigAll s ds).1.live.Nodup := by
  induction ds with
  | nil => intro s h; exact h
  | cons p rest ih =>
    intro s h
    by_cases hp : p ∈ s.live
    · simp only [sigAll, if_pos hp]
      exact ih _ (h.erase p)
    · simp only [sigAll, if_neg hp]
      exact h

theorem sigAll_preserve (ds : List Nat) :
    ∀ s : Sys, ∀ x, x ∈ s.live → x ∉ ds → x ∈ (sigAll s ds).1.live := by
  induction ds with
  | nil => intro s x hx _; exact hx
  | cons p rest ih =>
    intro s x hx hnot
    by_cases hp : p ∈ s.live
    · simp only [sigAll, if_pos hp]
      refine ih _ x ?_ (fun h => hnot (List.mem_cons_of_mem _ h))
      exact (List.mem_erase_of_ne
        (fun h => hnot (by rw [h]; exact List.mem_cons_self _ _))).mpr hx
    · simp only [sigAll, if_neg hp]
      exact hx

theorem sigAll_none_of_all_live (ds : List Nat) :
    ∀ s : Sys, s.live.Nodup → ds.Nodup → (∀ d ∈ ds, d ∈ s.live) →
      (sigAll s ds).2 = none ∧ ∀ d ∈ ds, d ∉ (sigAll s ds).1.live := by
  induction ds with
  | nil => intro s _ _ _; exact ⟨rfl, by simp⟩
  | cons p rest ih =>
    intro s hnd hdnd hall
    have hp : p ∈ s.live := hall p (List.mem_cons_self _ _)
    simp only [sigAll, if_pos hp]
    have hrest : ∀ d ∈ rest, d ∈ ({ s with live := s.live.erase p } : Sys).live := by
      intro d hd
      have hdp : d ≠ p := by
        intro h
        exact (List.nodup_cons.mp hdnd).1 (h ▸ hd)
      exact (List.mem_erase_of_ne hdp).mpr (hall d (List.mem_cons_of_mem _ hd))
    have h := ih { s with live := s.live.erase p } (hnd.erase p)
      (List.nodup_cons.mp hdnd).2 hrest
    refine ⟨h.1, ?_⟩
    intro d hd
    rcases List.mem_cons.mp hd with h1 | h1
    · subst h1
      intro hmem
      exact hnd.not_mem_erase (sigAll_subset _ _ hmem)
    · exact h.2 d h1

theorem sigAll_head_dead (d0 : Nat) (rest : List Nat) (s : Sys) (hnd : s.live.Nodup) :
    d0 ∉ (sigAll s (d0 :: rest)).1.live := by
  by_cases hp : d0 ∈ s.live
  · simp only [sigAll, if_pos hp]
    intro hmem
    exact hnd.not_mem_erase (sigAll_subset _ _ hmem)
  · simp only [sigAll, if_neg hp]
    exact hp

theorem sigAll_err_kind (ds : List Nat) :
    ∀ s : Sys, ∀ e, (sigAll s ds).2 = some e → e = PyExc.processLookupError := by
  induction ds with
  | nil => intro s e h; exact absurd h (by simp [sigAll])
  | cons p rest ih =>
    intro s e h
    by_cases hp : p ∈ s.live
    · simp only [sigAll, if_pos hp] at h
      exact ih _ e h
    · simp only [sigAll, if_neg hp] at h
      exact (Option.some_inj.mp h).symm

theorem killTryBlock_err_kind (s : Sys) (pid : Nat) (t : Sys) (e : PyExc)
    (h : killTryBlock s pid = (t, some e)) : caught e = true := by
  by_cases hp : pid ∈ s.live
  · rcases hsig : sigAll s (descendants s pid) with ⟨s1, eo⟩
    cases eo with
    | none =>
      by_cases hq : pid ∈ s1.live
      · simp [killTryBlock, hp, hsig, hq] at h
      · simp [killTryBlock, hp, hsig, hq] at h
        rw [← h.2]
        rfl
    | some e1 =>
      have he1 : e1 = PyExc.processLookupError := by
        have := sigAll_err_kind (descendants s pid) s e1
        rw [hsig] at this
        exact this rfl
      simp [killTryBlock, hp, hsig] at h
      rw [← h.2, he1]
      rfl
  · simp [killTryBlock, hp] at h
    rw [← h.2]
    rfl

theorem killTryBlock_props (s : Sys) (pid : Nat) (t : Sys) (eo : Option PyExc)
    (h : killTryBlock s pid = (t, eo)) :
    t.live ⊆ s.live ∧ t.edges = s.edges ∧ t.registry = s.registry ∧
      (s.live.Nodup → t.live.Nodup) := by
  by_cases hp : pid ∈ s.live
  · rcases hsig : sigAll s (descendants s pid) with ⟨s1, eo1⟩
    have hsub : s1.live ⊆ s.live := by
      have := sigAll_subset (descendants s pid) s
      rwa [hsig] at this
    have hedg : s1.edges = s.edges := by
      have := sigAll_edges (descendants s pid) s
      rwa [hsig] at this
    have hreg : s1.registry = s.registry := by
      have := sigAll_registry (descendants s pid) s
      rwa [hsig] at this
    have hndp : s.live.Nodup → s1.live.Nodup := by
      intro hn
      have := sigAll_nodup (descendants s pid) s hn
      rwa [hsig] at this
    cases eo1 with
    | none =>
      by_cases hq : pid ∈ s1.live
      · simp [killTryBlock, hp, hsig, hq] at h
        have ht : t = { s1 with live := s1.live.erase pid } := h.1.symm
        subst ht
        exact ⟨fun x hx => hsub (List.erase_subset _ _ hx), hedg, hreg,
          fun hn => (hndp hn).erase pid⟩
      · simp [killTryBlock, hp, hsig, hq] at h
        have ht : t = s1 := h.1.symm
        subst ht
        exact ⟨hsub, hedg, hreg, hndp⟩
    | some e1 =>
      simp [killTryBlock, hp, hsig] at h
      have ht : t = s1 := h.1.symm
      subst ht
      exact ⟨hsub, hedg, hreg, hndp⟩
  · simp [killTryBlock, hp] at h
    have ht : t = s := h.1.symm
    subst ht
    exact ⟨fun x hx => hx, rfl, rfl, fun hn => hn⟩

theorem killTryBlock_success (s : Sys) (pid : Nat)
    (hnd : s.live.Nodup) (hlive : pid ∈ s.live)
    (hds : ∀ d ∈ descendants s pid, d ∈ s.live)
    (hdnd : (descendants s pid).Nodup) (hself : pid ∉ descendants s pid) :
    ∃ t : Sys, killTryBlock s pid = (t, none) ∧
      t.edges = s.edges ∧ t.registry = s.registry ∧ t.live.Nodup ∧
      t.live ⊆ s.live ∧ pid ∉ t.live ∧
      (∀ d ∈ descendants s pid, d ∉ t.live) ∧
      (∀ x ∈ s.live, x ≠ pid → x ∉ descendants s pid → x ∈ t.live) := by
  rcases hsig : sigAll s (descendants s pid) with ⟨s1, eo⟩
  have hall := sigAll_none_of_all_live (descendants s pid) s hnd hdnd hds
  rw [hsig] at hall
  have heo : eo = none := hall.1
  subst heo
  have hq : pid ∈ s1.live := by
    have := sigAll_preserve (descendants s pid) s pid hlive hself
    rwa [hsig] at this
  have hsub : s1.live ⊆ s.live := by
    have := sigAll_subset (descendants s pid) s
    rwa [hsig] at this
  have hedg : s1.edges = s.edges := by
    have := sigAll_edges (descendants s pid) s
    rwa [hsig] at this
  have hreg : s1.registry = s.registry := by
    have := sigAll_registry (descendants s pid) s
    rwa [hsig] at this
  have hnd1 : s1.live.Nodup := by
    have := sigAll_nodup (descendants s pid) s hnd
    rwa [hsig] at this
  refine ⟨{ s1 with live := s1.live.erase pid }, ?_, hedg, hreg, hnd1.erase pid,
    fun x hx => hsub (List.erase_subset _ _ hx), hnd1.not_mem_erase, ?_, ?_⟩
  · simp [killTryBlock, hlive, hsig, hq]
  · intro d hd hmem
    exact hall.2 d hd (List.erase_subset _ _ hmem)
  · intro x hx hxp hxd
    have : x ∈ s1.live := by
      have := sigAll_preserve (descendants s pid) s x hx hxd
      rwa [hsig] at this
    exact (List.mem_erase_of_ne hxp).mpr this

theorem kill_never_raises (r : CLIResponse) (s : Sys) :
    ∃ s', r.kill s = Except.ok s' := by
  cases hp : r.proc with
  | none => exact ⟨s, by simp [CLIResponse.kill, hp]⟩
  | some pid =>
    rcases ht : killTryBlock s pid with ⟨t, eo⟩
    cases eo with
    | none =>
      exact ⟨{ t with registry := t.registry.erase r.id }, by
        simp [CLIResponse.kill, hp, ht]⟩
    | some e =>
      have hc : caught e = true := killTryBlock_err_kind s pid t e ht
      exact ⟨{ t with registry := t.registry.erase r.id }, by
        simp [CLIResponse.kill, hp, ht, hc]⟩

theorem kill_ok_props (r : CLIResponse) (s s' : Sys)
    (h : r.kill s = Except.ok s') :
    s'.live ⊆ s.live ∧ s'.edges = s.edges ∧ (s.live.Nodup → s'.live.Nodup) := by
  cases hp : r.proc with
  | none =>
    simp only [CLIResponse.kill, hp] at h
    have : s = s' := Except.ok.inj h
    subst this
    exact ⟨fun x hx => hx, rfl, fun hn => hn⟩
  | some pid =>
    rcases ht : killTryBlock s pid with ⟨t, eo⟩
    have hprops := killTryBlock_props s pid t eo ht
    cases eo with
    | none =>
      simp only [CLIResponse.kill, hp, ht] at h
      have : { t with registry := t.registry.erase r.id } = s' := Except.ok.inj h
      subst this
      exact ⟨hprops.1, hprops.2.1, hprops.2.2.2⟩
    | some e =>
      have hc : caught e = true := killTryBlock_err_kind s pid t e ht
      simp only [CLIResponse.kill, hp, ht, hc, if_true] at h
      have : { t with registry := t.registry.erase r.id } = s' := Except.ok.inj h
      subst this
      exact ⟨hprops.1, hprops.2.1, hprops.2.2.2⟩

theorem kill_ok_strong (r : CLIResponse) (s : Sys) (pid : Nat)
    (hproc : r.proc = some pid) (hnd : s.live.Nodup) (hlive : pid ∈ s.live)
    (hds : ∀ d ∈ descendants s pid, d ∈ s.live)
    (hdnd : (descendants s pid).Nodup) (hself : pid ∉ descendants s pid) :
    ∃ s', r.kill s = Except.ok s' ∧
      s'.edges = s.edges ∧ s'.registry = s.registry.erase r.id ∧ s'.live.Nodup ∧
      s'.live ⊆ s.live ∧ pid ∉ s'.live ∧
      (∀ d ∈ descendants s pid, d ∉ s'.live) ∧
      (∀ x ∈ s.live, x ≠ pid → x ∉ descendants s pid → x ∈ s'.live) := by
  rcases killTryBlock_success s pid hnd hlive hds hdnd hself with
    ⟨t, ht, hedg, hreg, hndt, hsub, hpid, hdead, hpres⟩
  refine ⟨{ t with registry := t.registry.erase r.id }, ?_, hedg, ?_, hndt, hsub,
    hpid, hdead, hpres⟩
  · simp [CLIResponse.kill, hproc, ht]
  · rw [hreg]

theorem descendants_congr (s1 s : Sys) (h : s1.edges = s.edges) (p : Nat) :
    descendants s1 p = descendants s p := by
  unfold descendants
  rw [h]

theorem kill_idem (r : CLIResponse) (s s1 : Sys) (hnd : s.live.Nodup)
    (hreg : s.registry.Nodup) (h : r.kill s = Except.ok s1) :
    r.kill s1 = Except.ok s1 := by
  cases hp : r.proc with
  | none =>
    simp only [CLIResponse.kill, hp]
  | some pid =>
    rcases ht : killTryBlock s pid with ⟨t, eo⟩
    have hprops := killTryBlock_props s pid t eo ht
    have hs1 : s1 = { t with registry := t.registry.erase r.id } := by
      cases eo with
      | none =>
        simp [CLIResponse.kill, hp, ht] at h
        exact h.symm
      | some e =>
        have hc : caught e = true := killTryBlock_err_kind s pid t e ht
        simp [CLIResponse.kill, hp, ht, hc] at h
        exact h.symm
    have hlive1 : s1.live = t.live := by rw [hs1]
    have hedges1 : s1.edges = s.edges := by
      rw [hs1]
      exact hprops.2.1
    have hreg1 : s1.registry = s.registry.erase r.id := by
      rw [hs1]
      show t.registry.erase r.id = s.registry.erase r.id
      rw [hprops.2.2.1]
    have hnotmem : r.id ∉ s1.registry := by
      rw [hreg1]
      exact hreg.not_mem_erase
    have hregfix : s1.registry.erase r.id = s1.registry := List.erase_of_not_mem hnotmem
    by_cases hq : pid ∈ s1.live
    · by_cases hp2 : pid ∈ s.live
      · rcases hsig : sigAll s (descendants s pid) with ⟨u, eo1⟩
        cases eo1 with
        | none =>
          by_cases hq2 : pid ∈ u.live
          · simp [killTryBlock, hp2, hsig, hq2] at ht
            have hul : s1.live = u.live.erase pid := by rw [hlive1, ← ht.1]
            have hu : u.live.Nodup := by
              have := sigAll_nodup (descendants s pid) s hnd
              rwa [hsig] at this
            rw [hul] at hq
            exact absurd hq hu.not_mem_erase
          · simp [killTryBlock, hp2, hsig, hq2] at ht
            rw [hlive1, ← ht.1] at hq
            exact absurd hq hq2
        | some e1 =>
          simp [killTryBlock, hp2, hsig] at ht
          have htu : t = u := ht.1.symm
          cases hdsc : descendants s pid with
          | nil =>
            rw [hdsc] at hsig
            simp [sigAll] at hsig
          | cons d0 rest =>
            rw [hdsc] at hsig
            have hd0 : d0 ∉ u.live := by
              have hhd := sigAll_head_dead d0 rest s hnd
              rwa [hsig] at hhd
            have hds1 : descendants s1 pid = d0 :: rest := by
              rw [descendants_congr s1 s hedges1 pid, hdsc]
            have hd0s1 : d0 ∉ s1.live := by
              rw [hlive1, htu]
              exact hd0
            have hkt2 : killTryBlock s1 pid = (s1, some PyExc.processLookupError) := by
              simp [killTryBlock, hq, hds1, sigAll, hd0s1]
            simp [CLIResponse.kill, hp, hkt2, caught, hregfix]
      · simp [killTryBlock, hp2] at ht
        rw [hlive1, ← ht.1] at hq
        exact absurd hq hp2
    · have hkt2 : killTryBlock s1 pid = (s1, some PyExc.noSuchProcess) := by
        simp [killTryBlock, hq]
      simp [CLIResponse.kill, hp, hkt2, caught, hregfix]

/-- C3: for a Result with an attached process, `kill` enumerates all recursive
descendants of the tracked pid, signals each of them and then the tracked pid
itself, so that afterwards neither the parent nor any descendant is alive.
The hypotheses say that the call does not race with concurrent process
deaths: the tracked pid and every enumerated descendant are alive, the
enumeration has no duplicates, and the genealogy is acyclic at `pid`. -/
theorem c3_kill_terminates_tree (r : CLIResponse) (s : Sys) (pid : Nat)
    (hproc : r.proc = some pid) (hnd : s.live.Nodup) (hlive : pid ∈ s.live)
    (hds : ∀ d ∈ descendants s pid, d ∈ s.live)
    (hdnd : (descendants s pid).Nodup) (hself : pid ∉ descendants s pid) :
    ∃ s', r.kill s = Except.ok s' ∧ pid ∉ s'.live ∧
      ∀ d ∈ descendants s pid, d ∉ s'.live := by
  rcases kill_ok_strong r s pid hproc hnd hlive hds hdnd hself with
    ⟨s', h1, _, _, _, _, h2, h3, _⟩
  exact ⟨s', h1, h2, h3⟩

/-- Witness for C3 at the concrete tree 1 → 2 → 3. -/
theorem c3_witness :
    descendants sysW 1 = [2, 3] ∧
    ∃ s', respW.kill sysW = Except.ok s' ∧ 1 ∉ s'.live ∧
      ∀ d ∈ descendants sysW 1, d ∉ s'.live :=
  ⟨by decide,
    c3_kill_terminates_tree respW sysW 1 rfl (by decide) (by decide)
      (by decide) (by decide) (by decide)⟩

/-- C4: `kill` is idempotent and never raises.  The try block can only raise
`ProcessLookupError` or `psutil.NoSuchProcess`, both caught at line 103, so
every call returns normally; with no attached process the call is a strict
no-op; on a process that already exited the whole tree signalling is
swallowed and only the registry entry is removed; and a second call on the
state produced by a first call leaves that state unchanged. -/
theorem c4_kill_idempotent_never_raises :
    (∀ (r : CLIResponse) (s : Sys), ∃ s', r.kill s = Except.ok s') ∧
    (∀ (r : CLIResponse) (s : Sys), r.proc = none → r.kill s = Except.ok s) ∧
    (∀ (r : CLIResponse) (s : Sys) (pid : Nat), r.proc = some pid →
      pid ∉ s.live →
      r.kill s = Except.ok { s with registry := s.registry.erase r.id }) ∧
    (∀ (r : CLIResponse) (s s1 : Sys), s.live.Nodup → s.registry.Nodup →
      r.kill s = Except.ok s1 → r.kill s1 = Except.ok s1) := by
  refine ⟨kill_never_raises, ?_, ?_, fun r s s1 => kill_idem r s s1⟩
  · intro r s h
    simp [CLIResponse.kill, h]
  · intro r s pid hproc hdead
    have hkt : killTryBlock s pid = (s, some PyExc.noSuchProcess) := by
      simp [killTryBlock, hdead]
    simp [CLIResponse.kill, hproc, hkt, caught]

/-- Witness for C4: killing the dead pid 9 succeeds and only unregisters,
killing with no attached process is a no-op, and a second kill is the
identity on the state the first one produced. -/
theorem c4_witness :
    (∃ s', respW4.kill sysW4 = Except.ok s') ∧
    respW4none.kill sysW4 = Except.ok sysW4 ∧
    respW4.kill sysW4 =
      Except.ok { sysW4 with registry := sysW4.registry.erase 0 } ∧
    respW4.kill { sysW4 with registry := sysW4.registry.erase 0 } =
      Except.ok { sysW4 with registry := sysW4.registry.erase 0 } := by
  refine ⟨c4_kill_idempotent_never_raises.1 respW4 sysW4,
    c4_kill_idempotent_never_raises.2.1 respW4none sysW4 rfl,
    c4_kill_idempotent_never_raises.2.2.1 respW4 sysW4 9 rfl (by decide), ?_⟩
  exact c4_kill_idempotent_never_raises.2.2.2 respW4 sysW4 _ (by decide)
    (by decide)
    (c4_kill_idempotent_never_raises.2.2.1 respW4 sysW4 9 rfl (by decide))

theorem tree_some (s : Sys) (r : CLIResponse) (pid : Nat) (h : r.proc = some pid) :
    tree s r = pid :: descendants s pid := by
  simp [tree, h]

theorem tree_congr (s1 s : Sys) (h : s1.edges = s.edges) (r : CLIResponse) :
    tree s1 r = tree s r := by
  cases hp : r.proc with
  | none => simp [tree, hp]
  | some p => simp [tree, hp, descendants_congr s1 s h p]

theorem cleanup_ok_subset (rs : List CLIResponse) :
    ∀ s s' : Sys, cleanup rs s = Except.ok s' → s'.live ⊆ s.live := by
  induction rs with
  | nil =>
    intro s s' h
    rw [Except.ok.inj h]
    exact fun x hx => hx
  | cons r rest ih =>
    intro s s' h
    rcases hk : r.kill s with e | s1
    · simp [cleanup, hk] at h
    · simp only [cleanup, hk] at h
      exact fun x hx => (kill_ok_props r s s1 hk).1 (ih s1 s' h hx)

/-- C7: exactly one shutdown hook is installed (`atexit.register(cleanup)` at
line 23 is the only registration), and running it calls `kill` on every
member of the snapshot of the registry taken when it starts, leaving no
process of any snapshotted invocation alive.  The snapshot
(`list(OBJS_TO_CLEANUP)`) makes the iteration immune to entries
unregistering themselves while it runs, and since every `kill` returns
normally the loop always completes.  Hypotheses: no enumeration races (each
tracked subtree is alive, duplicate-free and acyclic) and distinct
invocations track disjoint subtrees. -/
theorem c7_cleanup_drains (rs : List CLIResponse) (s : Sys)
    (hnd : s.live.Nodup)
    (htree : ∀ r ∈ rs, ∀ pid, r.proc = some pid →
      pid ∈ s.live ∧ (∀ d ∈ descendants s pid, d ∈ s.live) ∧
      (descendants s pid).Nodup ∧ pid ∉ descendants s pid)
    (hdisj : rs.Pairwise fun a b => ∀ x, x ∈ tree s a → x ∉ tree s b) :
    atexitHooks.length = 1 ∧
    ∃ s', cleanup rs s = Except.ok s' ∧
      ∀ r ∈ rs, ∀ pid, r.proc = some pid →
        pid ∉ s'.live ∧ ∀ d ∈ descendants s pid, d ∉ s'.live := by
  refine ⟨rfl, ?_⟩
  induction rs generalizing s with
  | nil => exact ⟨s, rfl, by simp⟩
  | cons r rest ih =>
    have hdp := List.pairwise_cons.mp hdisj
    cases hp : r.proc with
    | none =>
      have hk : r.kill s = Except.ok s := by simp [CLIResponse.kill, hp]
      rcases ih s hnd (fun r' hr' => htree r' (List.mem_cons_of_mem _ hr')) hdp.2
        with ⟨s', hcl, hdead⟩
      refine ⟨s', by simp [cleanup, hk, hcl], ?_⟩
      intro r' hr' pid hpid
      rcases List.mem_cons.mp hr' with h1 | h1
      · subst h1
        rw [hp] at hpid
        exact absurd hpid (by simp)
      · exact hdead r' h1 pid hpid
    | some pid =>
      obtain ⟨hlive, hds, hdnd, hself⟩ := htree r (List.mem_cons_self _ _) pid hp
      rcases kill_ok_strong r s pid hp hnd hlive hds hdnd hself with
        ⟨s1, hk, hedg, _, hnd1, _, hpiddead, hdescdead, hpres⟩
      have htree1 : ∀ r' ∈ rest, ∀ pid', r'.proc = some pid' →
          pid' ∈ s1.live ∧ (∀ d ∈ descendants s1 pid', d ∈ s1.live) ∧
          (descendants s1 pid').Nodup ∧ pid' ∉ descendants s1 pid' := by
        intro r' hr' pid' hp'
        obtain ⟨hl', hds', hdnd', hself'⟩ :=
          htree r' (List.mem_cons_of_mem _ hr') pid' hp'
        have hdiff : ∀ x, x ∈ tree s r → x ∉ tree s r' := hdp.1 r' hr'
        have hptree : pid' ∈ tree s r' := by
          rw [tree_some s r' pid' hp']
          exact List.mem_cons_self _ _
        have hpnot : pid' ∉ tree s r := fun hx => hdiff pid' hx hptree
        rw [tree_some s r pid hp] at hpnot
        simp only [List.mem_cons, not_or] at hpnot
        have hde : descendants s1 pid' = descendants s pid' :=
          descendants_congr s1 s hedg pid'
        refine ⟨hpres pid' hl' hpnot.1 hpnot.2, ?_, ?_, ?_⟩
        · intro d hd
          rw [hde] at hd
          have hdtree : d ∈ tree s r' := by
            rw [tree_some s r' pid' hp']
            exact List.mem_cons_of_mem _ hd
          have hdnot : d ∉ tree s r := fun hx => hdiff d hx hdtree
          rw [tree_some s r pid hp] at hdnot
          simp only [List.mem_cons, not_or] at hdnot
          exact hpres d (hds' d hd) hdnot.1 hdnot.2
        · rw [hde]
          exact hdnd'
        · rw [hde]
          exact hself'
      have hdisj1 : rest.Pairwise fun a b => ∀ x, x ∈ tree s1 a → x ∉ tree s1 b := by
        refine hdp.2.imp ?_
        intro a b hab x hx
        rw [tree_congr s1 s hedg] at hx
        rw [tree_congr s1 s hedg]
        exact hab x hx
      rcases ih s1 hnd1 htree1 hdisj1 with ⟨s', hcl, hdead⟩
      have hsub' : s'.live ⊆ s1.live := cleanup_ok_subset rest s1 s' hcl
      refine ⟨s', by simp [cleanup, hk, hcl], ?_⟩
      intro r' hr' pid' hp'
      rcases List.mem_cons.mp hr' with h1 | h1
      · subst h1
        rw [hp] at hp'
        have hpe : pid' = pid := (Option.some_inj.mp hp').symm
        subst hpe
        refine ⟨fun hx => hpiddead (hsub' hx), ?_⟩
        intro d hd hx
        exact hdescdead d hd (hsub' hx)
      · have hde : descendants s1 pid' = descendants s pid' :=
          descendants_congr s1 s hedg pid'
        obtain ⟨ha, hb⟩ := hdead r' h1 pid' hp'
        refine ⟨ha, ?_⟩
        rw [← hde]
        exact hb

/-- Witness for C7 with two live registered invocations. -/
theorem c7_witness :
    atexitHooks.length = 1 ∧
    ∃ s', cleanup [respW7a, respW7b] sysW7 = Except.ok s' ∧
      ∀ r ∈ [respW7a, respW7b], ∀ pid, r.proc = some pid →
        pid ∉ s'.live ∧ ∀ d ∈ descendants sysW7 pid, d ∉ s'.live :=
  c7_cleanup_drains [respW7a, respW7b] sysW7 (by decide) (by decide) (by decide)

/-- C8: the destructor `__del__` invokes `kill` automatically, so dropping
the last reference to a Result whose process subtree is still alive
terminates the whole subtree and removes the registry entry — a running
child is not leaked merely because the caller dropped the handle. -/
theorem c8_del_terminates_tree (r : CLIResponse) (s : Sys) (pid : Nat)
    (hproc : r.proc = some pid) (hnd : s.live.Nodup) (hlive : pid ∈ s.live)
    (hds : ∀ d ∈ descendants s pid, d ∈ s.live)
    (hdnd : (descendants s pid).Nodup) (hself : pid ∉ descendants s pid)
    (hregnd : s.registry.Nodup) :
    ∃ s', r.del s = Except.ok s' ∧ pid ∉ s'.live ∧
      (∀ d ∈ descendants s pid, d ∉ s'.live) ∧ r.id ∉ s'.registry := by
  rcases kill_ok_strong r s pid hproc hnd hlive hds hdnd hself with
    ⟨s', h1, _, hreg, _, _, h2, h3, _⟩
  refine ⟨s', h1, h2, h3, ?_⟩
  rw [hreg]
  exact hregnd.not_mem_erase

/-- Witness for C8 at the concrete subtree 5 → 6. -/
theorem c8_witness :
    ∃ s', respW8.del sysW8 = Except.ok s' ∧ 5 ∉ s'.live ∧
      (∀ d ∈ descendants sysW8 5, d ∉ s'.live) ∧ 2 ∉ s'.registry :=
  c8_del_terminates_tree respW8 sysW8 5 rfl (by decide) (by decide) (by decide)
    (by decide) (by decide) (by decide)

theorem runLbls_sound (cfg : ExecCfg) (ls : List Lbl) :
    ∀ s s' : ExecState, runLbls cfg s ls = some s' →
      Relation.ReflTransGen (Step cfg) s s' := by
  induction ls with
  | nil =>
    intro s s' h
    rw [Option.some_inj.mp h]
  | cons l ls ih =>
    intro s s' h
    rcases hs1 : stepFn cfg s l with _ | s1
    · rw [runLbls, hs1] at h
      exact absurd h (by simp)
    · rw [runLbls, hs1] at h
      exact Relation.ReflTransGen.head ⟨l, hs1⟩ (ih s1 s' h)

theorem runLbls_reach (cfg : ExecCfg) (ls : List Lbl) (s' : ExecState)
    (h : runLbls cfg (initState cfg) ls = some s') : Reach cfg s' :=
  runLbls_sound cfg ls (initState cfg) s' h

theorem inv_init (cfg : ExecCfg) : Inv cfg (initState cfg) := by
  constructor <;> simp [initState]

set_option maxHeartbeats 1600000 in
theorem inv_step (cfg : ExecCfg) (s s' : ExecState) (hi : Inv cfg s)
    (hs : Step cfg s s') : Inv cfg s' := by
  obtain ⟨l, hl⟩ := hs
  obtain ⟨o1, o2, o3, o4, o5, o6, o7, o8, o9, o10, o11, o12, o13, o14, o15, o16⟩ := hi
  cases l <;> simp only [stepFn] at hl
  case spawn =>
    split at hl
    next hc =>
      obtain rfl := Option.some_inj.mp hl
      constructor <;> simp_all
    next hc => exact absurd hl (by simp)
  case writeOut =>
    rcases hf : s.outFuture with _ | ⟨l, rest⟩ <;> simp only [hf] at hl
    · exact absurd hl (by simp)
    · split at hl
      next hc =>
        obtain rfl := Option.some_inj.mp hl
        constructor
        case outCons =>
          simp only [List.flatten_append, List.flatten_cons, List.flatten_nil,
            List.append_nil, ← List.append_assoc, o1]
        all_goals simp_all
      next hc => exact absurd hl (by simp)
  case writeErr =>
    rcases hf : s.errFuture with _ | ⟨l, rest⟩ <;> simp only [hf] at hl
    · exact absurd hl (by simp)
    · split at hl
      next hc =>
        obtain rfl := Option.some_inj.mp hl
        constructor
        case errCons =>
          simp only [List.flatten_append, List.flatten_cons, List.flatten_nil,
            List.append_nil, ← List.append_assoc, o2]
        all_goals simp_all
      next hc => exact absurd hl (by simp)
  case procExit =>
    split at hl
    next hc =>
      obtain rfl := Option.some_inj.mp hl
      constructor <;> simp_all
    next hc => exact absurd hl (by simp)
  case pumpOut =>
    rcases hf : s.outPending with _ | ⟨l, rest⟩ <;> simp only [hf] at hl
    · exact absurd hl (by simp)
    · obtain rfl := Option.some_inj.mp hl
      constructor <;> simp_all
  case pumpErr =>
    rcases hf : s.errPending with _ | ⟨l, rest⟩ <;> simp only [hf] at hl
    · exact absurd hl (by simp)
    · obtain rfl := Option.some_inj.mp hl
      constructor <;> simp_all
  case outEof =>
    split at hl
    next hc =>
      obtain rfl := Option.some_inj.mp hl
      constructor <;> simp_all
    next hc => exact absurd hl (by simp)
  case errEof =>
    split at hl
    next hc =>
      obtain rfl := Option.some_inj.mp hl
      constructor <;> simp_all
    next hc => exact absurd hl (by simp)
  case waitExit =>
    split at hl
    next hc =>
      obtain rfl := Option.some_inj.mp hl
      constructor <;> simp_all
    next hc => exact absurd hl (by simp)
  case joinOut =>
    split at hl
    next hc =>
      obtain rfl := Option.some_inj.mp hl
      constructor <;> simp_all
    next hc => exact absurd hl (by simp)
  case joinErr =>
    split at hl
    next hc =>
      obtain rfl := Option.some_inj.mp hl
      constructor <;> simp_all
    next hc => exact absurd hl (by simp)
  case joinTgt =>
    split at hl
    next hc =>
      obtain rfl := Option.some_inj.mp hl
      constructor <;> simp_all
    next hc => exact absurd hl (by simp)
  case fireEarly =>
    split at hl
    next hc =>
      obtain rfl := Option.some_inj.mp hl
      constructor <;> simp_all
    next hc => exact absurd hl (by simp)
  case fireSpawned =>
    split at hl
    next hc =>
      obtain rfl := Option.some_inj.mp hl
      by_cases hpe : s.procExited = true
      · constructor <;> simp_all
      · constructor <;> simp_all
    next hc => exact absurd hl (by simp)
  case joinTgt2 =>
    split at hl
    next hc =>
      obtain rfl := Option.some_inj.mp hl
      constructor <;> simp_all
    next hc => exact absurd hl (by simp)
  case setRC =>
    split at hl
    next hc =>
      obtain rfl := Option.some_inj.mp hl
      constructor <;> simp_all
    next hc => exact absurd hl (by simp)
  case setTime =>
    split at hl
    next hc =>
      obtain rfl := Option.some_inj.mp hl
      constructor <;> simp_all
    next hc => exact absurd hl (by simp)

theorem reach_inv (cfg : ExecCfg) (s : ExecState) (h : Reach cfg s) :
    Inv cfg s := by
  induction h with
  | refl => exact inv_init cfg
  | tail _ hstep ih => exact inv_step cfg _ _ ih hstep

theorem step_buffers_mono (cfg : ExecCfg) (s s' : ExecState) (h : Step cfg s s') :
    s.stdout_buf <+: s'.stdout_buf ∧ s.stderr_buf <+: s'.stderr_buf := by
  obtain ⟨l, hl⟩ := h
  cases l <;> simp only [stepFn] at hl
  case writeOut =>
    rcases hf : s.outFuture with _ | ⟨a, b⟩ <;> simp only [hf] at hl
    · exact absurd hl (by simp)
    · split at hl
      next =>
        obtain rfl := Option.some_inj.mp hl
        exact ⟨List.prefix_rfl, List.prefix_rfl⟩
      next => exact absurd hl (by simp)
  case writeErr =>
    rcases hf : s.errFuture with _ | ⟨a, b⟩ <;> simp only [hf] at hl
    · exact absurd hl (by simp)
    · split at hl
      next =>
        obtain rfl := Option.some_inj.mp hl
        exact ⟨List.prefix_rfl, List.prefix_rfl⟩
      next => exact absurd hl (by simp)
  case pumpOut =>
    rcases hf : s.outPending with _ | ⟨a, b⟩ <;> simp only [hf] at hl
    · exact absurd hl (by simp)
    · obtain rfl := Option.some_inj.mp hl
      exact ⟨List.prefix_append _ _, List.prefix_rfl⟩
  case pumpErr =>
    rcases hf : s.errPending with _ | ⟨a, b⟩ <;> simp only [hf] at hl
    · exact absurd hl (by simp)
    · obtain rfl := Option.some_inj.mp hl
      exact ⟨List.prefix_rfl, List.prefix_append _ _⟩
  all_goals split at hl
  all_goals first
    | (obtain rfl := Option.some_inj.mp hl
       exact ⟨List.prefix_rfl, List.prefix_rfl⟩)
    | simp at hl

theorem done_no_step (cfg : ExecCfg) (s : ExecState) (hi : Inv cfg s)
    (hm : s.mpc = MPC.mDone) (s' : ExecState) : ¬ Step cfg s s' := by
  intro hstep
  obtain ⟨l, hl⟩ := hstep
  have ht : s.tpc = TPC.tDone := hi.mainPC (Or.inr (Or.inr hm))
  have hrc : s.returncode ≠ none := hi.rcPC.mpr (Or.inr (Or.inr ht))
  have hpe : s.procExited = true := (hi.rcVal hrc).2
  have hod : s.outDone = true := hi.joinedOut (Or.inr ht)
  have hed : s.errDone = true := hi.joinedErr ht
  have hop : s.outPending = [] := (hi.outDoneP hod).1
  have hep : s.errPending = [] := (hi.errDoneP hed).1
  cases l <;> simp only [stepFn] at hl
  case writeOut =>
    rcases hf : s.outFuture with _ | ⟨a, b⟩ <;> simp [hf, hpe] at hl
  case writeErr =>
    rcases hf : s.errFuture with _ | ⟨a, b⟩ <;> simp [hf, hpe] at hl
  case pumpOut => simp [hop] at hl
  case pumpErr => simp [hep] at hl
  all_goals simp [ht, hm, hpe, hod, hed] at hl

theorem final_natural (cfg : ExecCfg) (s : ExecState) (h : Reach cfg s)
    (hm : s.mpc = MPC.mDone) (hnk : s.killed = false) :
    s.returncode = some cfg.exitCode ∧ s.stdout_buf = cfg.outLines.flatten ∧
    s.stderr_buf = cfg.errLines.flatten ∧ s.registered = cfg.registered0 := by
  have hi := reach_inv cfg s h
  have ht : s.tpc = TPC.tDone := hi.mainPC (Or.inr (Or.inr hm))
  have hrc : s.returncode ≠ none := hi.rcPC.mpr (Or.inr (Or.inr ht))
  have hpe : s.procExited = true := (hi.rcVal hrc).2
  obtain ⟨hof, hef, hoc⟩ := hi.natExit hnk hpe
  obtain ⟨hw1, hw2⟩ := hi.natFull hnk
  rw [hof, List.append_nil] at hw1
  rw [hef, List.append_nil] at hw2
  have hod := hi.joinedOut (Or.inr ht)
  have hed := hi.joinedErr ht
  have hop := (hi.outDoneP hod).1
  have hep := (hi.errDoneP hed).1
  have hb1 : s.stdout_buf = s.outWritten.flatten := by
    have hx := hi.outCons
    rwa [hop, List.flatten_nil, List.append_nil] at hx
  have hb2 : s.stderr_buf = s.errWritten.flatten := by
    have hx := hi.errCons
    rwa [hep, List.flatten_nil, List.append_nil] at hx
  refine ⟨?_, ?_, ?_, ?_⟩
  · rw [(hi.rcVal hrc).1, hoc]
  · rw [hb1, hw1]
  · rw [hb2, hw2]
  · rw [hi.regInv, hnk]
    simp

/-- C1: on every completion path of `_exec_cmd` — natural exit or
timeout-forced kill — both stream pumps are joined before the Result is
final: whenever line 150 or later is reached the pumps have observed
end-of-stream; `total_time` is only ever set after both pumps are joined;
and in every returned state the exit code and elapsed time are set and each
buffer holds exactly the bytes the process wrote to that stream. -/
theorem c1_pumps_joined_before_final (cfg : ExecCfg) (s : ExecState)
    (h : Reach cfg s) :
    (s.mpc = MPC.mSetRC ∨ s.mpc = MPC.mSetTime ∨ s.mpc = MPC.mDone →
      s.outDone = true ∧ s.errDone = true) ∧
    (s.total_time ≠ none → s.outDone = true ∧ s.errDone = true) ∧
    (s.mpc = MPC.mDone →
      s.stdout_buf = s.outWritten.flatten ∧
      s.stderr_buf = s.errWritten.flatten ∧
      s.returncode = s.osCode ∧ s.returncode ≠ none ∧ s.total_time ≠ none) := by
  have hi := reach_inv cfg s h
  have hjoined : s.tpc = TPC.tDone → s.outDone = true ∧ s.errDone = true :=
    fun ht => ⟨hi.joinedOut (Or.inr ht), hi.joinedErr ht⟩
  refine ⟨fun hmp => hjoined (hi.mainPC hmp), ?_, ?_⟩
  · intro htt
    exact hjoined (hi.mainPC (Or.inr (Or.inr (hi.timePC.mp htt))))
  · intro hm
    have ht : s.tpc = TPC.tDone := hi.mainPC (Or.inr (Or.inr hm))
    have hod := hi.joinedOut (Or.inr ht)
    have hed := hi.joinedErr ht
    have hop := (hi.outDoneP hod).1
    have hep := (hi.errDoneP hed).1
    have hrc : s.returncode ≠ none := hi.rcPC.mpr (Or.inr (Or.inr ht))
    have hb1 : s.stdout_buf = s.outWritten.flatten := by
      have hx := hi.outCons
      rwa [hop, List.flatten_nil, List.append_nil] at hx
    have hb2 : s.stderr_buf = s.errWritten.flatten := by
      have hx := hi.errCons
      rwa [hep, List.flatten_nil, List.append_nil] at hx
    exact ⟨hb1, hb2, (hi.rcVal hrc).1, hrc, hi.timePC.mpr hm⟩

/-- Witness for C1: a complete natural-exit run reaches a final state whose
buffers hold the full output and whose exit code and elapsed time are set. -/
theorem c1_witness :
    Reach cfgC1 sFinC1 ∧ sFinC1.mpc = MPC.mDone ∧
    sFinC1.stdout_buf = sFinC1.outWritten.flatten ∧
    sFinC1.stderr_buf = sFinC1.errWritten.flatten ∧
    sFinC1.returncode = some 0 ∧ sFinC1.total_time ≠ none := by
  have hr : Reach cfgC1 sFinC1 := runLbls_reach cfgC1 chainC1 sFinC1 rfl
  obtain ⟨h1, h2, h3⟩ := c1_pumps_joined_before_final cfgC1 sFinC1 hr
  obtain ⟨hb1, hb2, hrc, hrcn, htt⟩ := h3 rfl
  refine ⟨hr, rfl, hb1, hb2, ?_, htt⟩
  rw [hrc]
  rfl

/-- C5 counterexample: the claim says a naturally completed asynchronous
invocation is no longer a member of the Cleanup Registry, but a registered
run that completes naturally (never killed) ends with its registry
membership intact — only `kill` ever removes it. -/
theorem c5_counterexample :
    ¬ (∀ s : ExecState, Reach cfgC5 s → s.mpc = MPC.mDone → s.killed = false →
        s.registered = false) := by
  intro hclaim
  have hr : Reach cfgC5 sFinC5 := runLbls_reach cfgC5 chainC5 sFinC5 rfl
  have h := hclaim sFinC5 hr rfl rfl
  exact absurd h (by decide)

/-- C5 (amended): the Result of an asynchronous invocation is registered at
spawn time and stays in the Cleanup Registry exactly until `kill` runs
(timeout firing, explicit call, destructor or the atexit hook); natural
completion does not deregister it.  In every reachable state the membership
equals the initial membership conjoined with the kill never having fired. -/
theorem c5_registry_membership (cfg : ExecCfg) (s : ExecState)
    (h : Reach cfg s) :
    s.registered = (cfg.registered0 && !s.killed) :=
  (reach_inv cfg s h).regInv

/-- Witness for the amended C5 at the naturally completed async run. -/
theorem c5_witness :
    Reach cfgC5 sFinC5 ∧
    sFinC5.registered = (cfgC5.registered0 && !sFinC5.killed) := by
  have hr : Reach cfgC5 sFinC5 := runLbls_reach cfgC5 chainC5 sFinC5 rfl
  exact ⟨hr, c5_registry_membership cfgC5 sFinC5 hr⟩

/-- C6 counterexample: the claimed invariant "`total_time` is set if and
only if `returncode` is set" fails at the reachable state just after
`proc.wait()` returns at line 136 (observable by an async poller):
`returncode` is already `some 0` while `total_time`, assigned only at line
151, is still `None`. -/
theorem c6_counterexample :
    ¬ (∀ s : ExecState, Reach cfgC6 s →
        (s.total_time ≠ none ↔ s.returncode ≠ none)) := by
  intro hclaim
  have hr : Reach cfgC6 sBadC6 := runLbls_reach cfgC6 chainC6 sBadC6 rfl
  have h := hclaim sBadC6 hr
  exact h.mpr (by decide) rfl

/-- C6 (amended): throughout an invocation, `returncode` is `None` exactly
until the worker observes the process exit (`proc.wait()` returning);
`total_time` being set implies `returncode` is set (but not conversely —
there is a window between lines 136 and 151); the buffers only grow along
any step; and a finalized state (`_exec_cmd` returned) is stable — no
further step can change it. -/
theorem c6_state_invariants (cfg : ExecCfg) (s : ExecState) (h : Reach cfg s) :
    (s.total_time ≠ none → s.returncode ≠ none) ∧
    (s.returncode = none ↔ (s.tpc = TPC.tStart ∨ s.tpc = TPC.tWait)) ∧
    (∀ s', Step cfg s s' → s.stdout_buf <+: s'.stdout_buf ∧
      s.stderr_buf <+: s'.stderr_buf) ∧
    (s.mpc = MPC.mDone → ∀ s', ¬ Step cfg s s') := by
  have hi := reach_inv cfg s h
  refine ⟨?_, ?_, ?_, ?_⟩
  · intro htt
    exact hi.rcPC.mpr
      (Or.inr (Or.inr (hi.mainPC (Or.inr (Or.inr (hi.timePC.mp htt))))))
  · have h2 : s.returncode = none ↔
        ¬(s.tpc = TPC.tJoinOut ∨ s.tpc = TPC.tJoinErr ∨ s.tpc = TPC.tDone) := by
      rw [← hi.rcPC]
      exact not_not.symm
    rw [h2]
    cases s.tpc <;> simp
  · intro s' hs
    exact step_buffers_mono cfg s s' hs
  · intro hm
    exact done_no_step cfg s hi hm

/-- Witness for the amended C6 at the mid-run state after `proc.wait()`. -/
theorem c6_witness :
    Reach cfgC6 sBadC6 ∧
    (sBadC6.returncode = none ↔
      (sBadC6.tpc = TPC.tStart ∨ sBadC6.tpc = TPC.tWait)) ∧
    (sBadC6.total_time ≠ none → sBadC6.returncode ≠ none) := by
  have hr : Reach cfgC6 sBadC6 := runLbls_reach cfgC6 chainC6 sBadC6 rfl
  have hc := c6_state_invariants cfgC6 sBadC6 hr
  exact ⟨hr, hc.2.1, hc.1⟩

/-- C10: when the timeout never fires (the worker thread is joined within
the timeout, so `kill` is never called), `_exec_cmd` with a timeout is
observationally identical to `_exec_cmd` without one: any completed run of
either produces the same exit code, the same stdout and stderr contents,
and the same registry membership. -/
theorem c10_timeout_transparent (cfg : ExecCfg) (s s' : ExecState)
    (_hT : cfg.hasTimeout = true)
    (h1 : Reach cfg s) (hm1 : s.mpc = MPC.mDone) (hnk : s.killed = false)
    (h2 : Reach { cfg with hasTimeout := false } s')
    (hm2 : s'.mpc = MPC.mDone) :
    s.returncode = s'.returncode ∧ s.stdout_buf = s'.stdout_buf ∧
    s.stderr_buf = s'.stderr_buf ∧ s.registered = s'.registered := by
  have hnk' : s'.killed = false := by
    cases hkb : s'.killed
    · rfl
    · have hx := (reach_inv _ s' h2).killedTO hkb
      simp at hx
  obtain ⟨ha1, hb1, hc1, hd1⟩ := final_natural cfg s h1 hm1 hnk
  obtain ⟨ha2, hb2, hc2, hd2⟩ := final_natural _ s' h2 hm2 hnk'
  refine ⟨?_, ?_, ?_, ?_⟩
  · rw [ha1, ha2]
  · rw [hb1, hb2]
  · rw [hc1, hc2]
  · rw [hd1, hd2]

/-- Witness for C10: the same schedule completes under the timeout and the
no-timeout configuration, and the theorem equates all observables. -/
theorem c10_witness :
    Reach cfgC10 sFinC10 ∧ Reach { cfgC10 with hasTimeout := false } sFinC10 ∧
    sFinC10.killed = false ∧
    sFinC10.returncode = sFinC10.returncode ∧
    sFinC10.stdout_buf = sFinC10.stdout_buf ∧
    sFinC10.stderr_buf = sFinC10.stderr_buf ∧
    sFinC10.registered = sFinC10.registered := by
  have h1 : Reach cfgC10 sFinC10 := runLbls_reach cfgC10 chainC10 sFinC10 rfl
  have h2 : Reach { cfgC10 with hasTimeout := false } sFinC10 :=
    runLbls_reach _ chainC10 sFinC10 rfl
  have hc := c10_timeout_transparent cfgC10 sFinC10 sFinC10 rfl h1 rfl rfl h2 rfl
  exact ⟨h1, h2, rfl, hc.1, hc.2.1, hc.2.2.1, hc.2.2.2⟩

/-- C2 (code bug): on a launch failure, the synchronous no-timeout path
does surface the launch error distinctly from any exit code, but the
timeout path surfaces an unrelated `AttributeError`, and the asynchronous
path never returns at all: the worker thread dies inside `Popen` before
assigning `cmd_obj.proc`, which stays `None` forever, so the wait loop of
`async_cmd` never exits no matter how many iterations it runs. -/
theorem c2_launch_failure_paths :
    execCmdNoTimeoutLaunch SpawnResult.failure =
      Except.error PyError.launchError ∧
    execCmdTimeoutLaunch SpawnResult.failure =
      Except.error PyError.attributeError ∧
    ∀ fuel : Nat, asyncWaitLoop none fuel = false := by
  refine ⟨rfl, rfl, ?_⟩
  intro fuel
  induction fuel with
  | zero => rfl
  | succ n ih => simpa [asyncWaitLoop] using ih

end CommandLine
